import Mathlib

/-!
Shallow embedding of the WeChat mini-program client core:
the endpoint store and resilient request executor (`utils/request.js`),
the response normalizer of the suggestion page (`pages/home/home.js`),
the chat page's display/stripping and history writes (`pages/chat/chat.js`),
and the history store mutations shared by both pages.

Platform primitives (`wx.getStorageSync` / `wx.setStorageSync`, `wx.request`,
`JSON.parse`) are modelled as explicit state and oracle parameters; JS string
operations (`includes`, `trim`, `split`, `join`, regex replace/match for the
`<learned_json>` tag) are re-implemented on `List Char` so everything is
executable and kernel-reducible.
-/

namespace VocabBuddy

/-- Source: `const DEFAULTS = ['http://127.0.0.1:8000', 'http://localhost:8000']`. -/
def DEFAULT0 : String := "http://127.0.0.1:8000"

/-- Second member of the fixed endpoint pool. -/
def DEFAULT1 : String := "http://localhost:8000"

/-- The fixed two-endpoint pool. -/
def DEFAULTS : List String := [DEFAULT0, DEFAULT1]

/-- Key-value storage as the executor sees it: the stored `BASE_URL` value
(`none` models an absent key), plus flags modelling `wx.getStorageSync` /
`wx.setStorageSync` throwing (both are swallowed by the source's
`try`/`catch`). -/
structure Storage where
  baseUrl : Option String
  readFails : Bool
  writeFails : Bool
deriving DecidableEq, Repr

/-- Source `getStoredBaseUrl`: `try { const v = wx.getStorageSync('BASE_URL');
return v || DEFAULTS[0] } catch (e) { return DEFAULTS[0] }`. An absent key and
a falsy stored string (the empty string) both yield the first default. -/
def getStoredBaseUrl (st : Storage) : String :=
  if st.readFails then DEFAULT0
  else
    match st.baseUrl with
    | none => DEFAULT0
    | some v => if v = "" then DEFAULT0 else v

/-- Source `setBaseUrl`: `try { wx.setStorageSync('BASE_URL', url) } catch (e) {}`;
a throwing write is swallowed and leaves the store unchanged. -/
def setBaseUrl (st : Storage) (url : String) : Storage :=
  if st.writeFails then st else { st with baseUrl := some url }

/-- Splits `cs` at the first occurrence of `needle`, returning the part before
the occurrence and the part after it, or `none` when `needle` does not occur
(the `List Char` analogue of `String.prototype.indexOf`). -/
def splitFirst (needle : List Char) : List Char → Option (List Char × List Char)
  | [] => if needle = [] then some ([], []) else none
  | c :: t =>
    if needle.isPrefixOf (c :: t) then some ([], (c :: t).drop needle.length)
    else (splitFirst needle t).map (fun p => (c :: p.1, p.2))

/-- JS `String.prototype.includes`. -/
def jsIncludes (s sub : String) : Bool :=
  (splitFirst sub.data s.data).isSome

/-- Source: `const alt = first.includes('127.0.0.1') ? DEFAULTS[1] : DEFAULTS[0]`. -/
def altEndpoint (first : String) : String :=
  if jsIncludes first "127.0.0.1" then DEFAULT1 else DEFAULT0

/-- Result of `withFallback`: the settled promise value, the storage after the
call, and the list of base URLs attempted in order (one entry = no retry,
two entries = exactly one retry). -/
structure FallbackResult (β : Type) where
  result : Except String β
  store : Storage
  attempts : List String

/-- Source `withFallback(requestFn)`: attempt `requestFn(first)` with `first`
read from the store; on rejection, persist the alternate (`setBaseUrl(alt)`)
and retry exactly once with `alt`; a second rejection rejects the whole
promise with the second error (the first error is discarded). -/
def withFallback (req : String → Except String β) (st : Storage) : FallbackResult β :=
  let first := getStoredBaseUrl st
  let alt := altEndpoint first
  match req first with
  | Except.ok v => ⟨Except.ok v, st, [first]⟩
  | Except.error _ =>
    let st1 := setBaseUrl st alt
    match req alt with
    | Except.ok v => ⟨Except.ok v, st1, [first, alt]⟩
    | Except.error e => ⟨Except.error e, st1, [first, alt]⟩

/-- Outcome of one transport-level attempt against a base URL: either the
`fail` callback fires (no response), or a response with a status code and a
body arrives. -/
inductive AttemptOutcome (α : Type) where
  | transportError (err : String)
  | response (statusCode : Nat) (data : α)
deriving DecidableEq, Repr

/-- Source: the promise built inside `_wxRequest` for one base URL: resolve
`(data, base)` when `200 <= statusCode && statusCode < 300`, otherwise reject
`Error('HTTP <status>: <stringified body>')`; transport failure rejects with
the transport error. `strf` models the source's
`typeof data === 'string' ? data : JSON.stringify(data)`. -/
def attemptOf (outcome : AttemptOutcome α) (strf : α → String) (base : String) :
    Except String (α × String) :=
  match outcome with
  | AttemptOutcome.transportError e => Except.error e
  | AttemptOutcome.response sc d =>
    if 200 ≤ sc ∧ sc < 300 then Except.ok (d, base)
    else Except.error ("HTTP " ++ toString sc ++ ": " ++ strf d)

/-- Source `_wxRequest(method, path, data)`: `withFallback` over the
single-attempt promise. The oracle `net` gives, per base URL, the transport
outcome of `wx.request` for the (fixed) method, path and body. -/
def wxRequest (net : String → AttemptOutcome α) (strf : α → String) (st : Storage) :
    FallbackResult (α × String) :=
  withFallback (fun base => attemptOf (net base) strf base) st

/-- Source `post(path, data)`: run `_wxRequest` and, on success,
`if (res && res.base) setBaseUrl(res.base)`, returning `res.data`. -/
def post (net : String → AttemptOutcome α) (strf : α → String) (st : Storage) :
    Except String α × Storage :=
  let r := wxRequest net strf st
  match r.result with
  | Except.ok (d, base) =>
    (Except.ok d, if base = "" then r.store else setBaseUrl r.store base)
  | Except.error e => (Except.error e, r.store)

/-- Source `get(path)`: identical persist-on-success shape as `post`. -/
def get (net : String → AttemptOutcome α) (strf : α → String) (st : Storage) :
    Except String α × Storage :=
  let r := wxRequest net strf st
  match r.result with
  | Except.ok (d, base) =>
    (Except.ok d, if base = "" then r.store else setBaseUrl r.store base)
  | Except.error e => (Except.error e, r.store)

/-!  Response normalizer (`pages/home/home.js`, `fetchSuggestion`). -/

/-- One structured learning item, as produced by the normalizer cascade. -/
structure LearningItem where
  word : String
  topic : String
  level : String
  hint : String
deriving DecidableEq, Repr

/-- Shape of the `/chat` response body as the client reads it: an optional
structured `learned` list (`none` models an absent or non-array field) and an
optional `reply` text. -/
structure ChatResponse where
  learned : Option (List LearningItem)
  reply : Option String
deriving DecidableEq, Repr

/-- Which cascade stage produced the item. -/
inductive Branch where
  | structured
  | taggedJson
  | pipe
  | fallback
deriving DecidableEq, Repr

/-- Characters of the opening tag `<learned_json>`. -/
def openTag : List Char := "<learned_json>".data

/-- Characters of the closing tag `</learned_json>`. -/
def closeTag : List Char := "</learned_json>".data

/-- One pass of the global regex replace
`text.replace(/<learned_json>[\s\S]*?<\/learned_json>/g, '')`: repeatedly drop
the region from the next opening tag through the first closing tag after it;
an opening tag with no later closing tag matches nothing and is kept. `fuel`
bounds the recursion (each step removes at least the opening tag). -/
def stripAux (fuel : Nat) (cs : List Char) : List Char :=
  match fuel with
  | 0 => cs
  | f + 1 =>
    match splitFirst openTag cs with
    | none => cs
    | some (pre, rest) =>
      match splitFirst closeTag rest with
      | none => cs
      | some (_, post) => pre ++ stripAux f post

/-- Source: `text.replace(/<learned_json>[\s\S]*?<\/learned_json>/g, '')`. -/
def stripLearned (s : String) : String :=
  String.mk (stripAux s.data.length s.data)

/-- JS `String.prototype.trim` (also the effect of the `\s*` padding in the
extraction regex): whitespace removed from both ends. -/
def jsTrim (s : String) : String :=
  String.mk (((s.data.dropWhile Char.isWhitespace).reverse.dropWhile Char.isWhitespace).reverse)

/-- Source: `text.match(/<learned_json>\s*([\s\S]*?)\s*<\/learned_json>/)`,
returning the captured group of the first tagged block: the text between the
first opening tag and the first closing tag after it, trimmed of surrounding
whitespace; `none` when no complete block exists. -/
def extractLearned (s : String) : Option String :=
  match splitFirst openTag s.data with
  | none => none
  | some (_, rest) =>
    match splitFirst closeTag rest with
    | none => none
    | some (inner, _) => some (jsTrim (String.mk inner))

/-- JS `text.split('|')` (the split argument is the one-character string). -/
def splitOnChar (c : Char) : List Char → List (List Char)
  | [] => [[]]
  | x :: t =>
    match splitOnChar c t with
    | [] => if x = c then [[], [x]] else [[x]]
    | h :: r => if x = c then [] :: h :: r else (x :: h) :: r

/-- Source: `cleanText.split('|')`. -/
def jsSplitPipe (s : String) : List String :=
  (splitOnChar '|' s.data).map String.mk

/-- JS `Array.prototype.join(sep)`. -/
def joinSep (sep : String) : List String → String
  | [] => ""
  | [x] => x
  | x :: y :: t => x ++ sep ++ joinSep sep (y :: t)

/-- Source `fetchSuggestion` step 3 and 4, operating on the already stripped
and trimmed `cleanText`: split on the pipe, trim each segment; with at least 4
segments build the item positionally (hint rejoins segment 4 onward with
`' | '`); otherwise the fixed fallback item whose hint is
`cleanText || 'Start learning now!'`. -/
def pipeFallback (cleanText : String) : LearningItem × Branch :=
  let parts := (jsSplitPipe cleanText).map jsTrim
  if 4 ≤ parts.length then
    ({ word := parts.getD 0 "", topic := parts.getD 1 "", level := parts.getD 2 "",
       hint := joinSep " | " (parts.drop 3) }, Branch.pipe)
  else
    ({ word := "Word", topic := "General", level := "All",
       hint := if cleanText = "" then "Start learning now!" else cleanText }, Branch.fallback)

/-- Source `fetchSuggestion` steps 2-4 on the raw reply text: `cleanText` is
the stripped, trimmed text; if the regex captures a truthy (non-empty) block
content whose `JSON.parse` (oracle `jp`, `none` models a parse throw or a
non-array value) yields a non-empty list, take its first element; otherwise
fall through to the pipe/fallback stage. -/
def normalizeText (jp : String → Option (List LearningItem)) (text : String) :
    LearningItem × Branch :=
  let cleanText := jsTrim (stripLearned text)
  match extractLearned text with
  | some inner =>
    if inner = "" then pipeFallback cleanText
    else
      match jp inner with
      | some (item :: _) => (item, Branch.taggedJson)
      | _ => pipeFallback cleanText
  | none => pipeFallback cleanText

/-- Source: `const text = (res && res.reply) ? String(res.reply) : ''`. -/
def replyText (res : Option ChatResponse) : String :=
  match res with
  | some r => r.reply.getD ""
  | none => ""

/-- Source `fetchSuggestion` cascade (steps 1-4): prefer a non-empty
structured `res.learned` list (first element verbatim), else normalize the
reply text. Returns the item together with the stage that produced it. -/
def normalize (jp : String → Option (List LearningItem)) (res : Option ChatResponse) :
    LearningItem × Branch :=
  match res with
  | some r =>
    match r.learned with
    | some (item :: _) => (item, Branch.structured)
    | _ => normalizeText jp (r.reply.getD "")
  | none => normalizeText jp ""

/-- Source `onSend` (chat page): `const reply = res && res.reply ?
String(res.reply) : 'No reply'; const cleaned = reply.replace(/<learned_json>
[\s\S]*?<\/learned_json>/g, '').trim(); this.addBot(cleaned || '')`. The text
handed to the conversation display. -/
def chatDisplay (res : Option ChatResponse) : String :=
  let reply :=
    match res with
    | some r =>
      match r.reply with
      | some t => if t = "" then "No reply" else t
      | none => "No reply"
    | none => "No reply"
  let cleaned := jsTrim (stripLearned reply)
  if cleaned = "" then "" else cleaned

/-- Guard of cascade stage 1: `res && Array.isArray(res.learned) &&
res.learned.length > 0`. -/
def structuredFires (res : Option ChatResponse) : Prop :=
  ∃ r item rest, res = some r ∧ r.learned = some (item :: rest)

/-- Guard of cascade stage 2: the regex captures a non-empty block content
that parses to a non-empty list. -/
def taggedFires (jp : String → Option (List LearningItem)) (text : String) : Prop :=
  ∃ inner item rest, extractLearned text = some inner ∧ inner ≠ "" ∧ jp inner = some (item :: rest)

/-- The trimmed pipe segments of the stripped reply text. -/
def pipeParts (text : String) : List String :=
  (jsSplitPipe (jsTrim (stripLearned text))).map jsTrim

/-- Guard of cascade stage 3: at least 4 pipe segments. -/
def pipeFires (text : String) : Prop :=
  4 ≤ (pipeParts text).length

/-!  History store (`_saveHistoryItem` in `pages/home/home.js`,
`_saveHistory` in `pages/chat/chat.js`). -/

/-- One persisted history entry; `ts` is the millisecond timestamp field,
optional because an incoming item may or may not already carry one. -/
structure HistEntry where
  word : String
  topic : String
  level : String
  hint : String
  ts : Option Nat
deriving DecidableEq, Repr

/-- Source: `{ ...item, ts: Date.now() }` — the spread copies the item's
fields and the trailing `ts:` property then overwrites any spread `ts`. -/
def stampNow (now : Nat) (it : HistEntry) : HistEntry :=
  { it with ts := some now }

/-- Source `_saveHistoryItem(item)` (suggestion flow):
`list.unshift({ ...item, ts: Date.now() }); wx.setStorageSync(...,
list.slice(0, 200))` over the loaded log. -/
def saveHistoryItem (now : Nat) (item : HistEntry) (list : List HistEntry) : List HistEntry :=
  (stampNow now item :: list).take 200

/-- Source `_saveHistory(items)` (chat flow): `const withTs = items.map(it =>
({ ...it, ts: Date.now() })); wx.setStorageSync(..., withTs.concat(list)
.slice(0, 200))`. -/
def saveHistory (now : Nat) (items : List HistEntry) (list : List HistEntry) : List HistEntry :=
  (items.map (stampNow now) ++ list).take 200

/-- Repeated single-item insertion through the suggestion-flow mutation,
oldest first: the "insert 210 items into an empty store" experiment. -/
def insertAll (now : Nat) (items : List HistEntry) (list : List HistEntry) : List HistEntry :=
  items.foldl (fun acc it => saveHistoryItem now it acc) list

/-- Endpoint-store invariant: any persisted base URL is a pool member. -/
def StoreOK (st : Storage) : Prop :=
  ∀ u, st.baseUrl = some u → u ∈ DEFAULTS

/-- Concrete history entry used in counterexamples: an old persisted entry. -/
def entryA : HistEntry := ⟨"alpha", "animals", "Beginner", "first", some 1⟩

/-- Concrete history entry used in counterexamples: a new unstamped item. -/
def entryB : HistEntry := ⟨"beta", "food", "Advanced", "second", none⟩

/-- Concrete history entry that already carries timestamp 5. -/
def entryS : HistEntry := ⟨"gamma", "sports", "Intermediate", "third", some 5⟩

/-- The structured item of the spec's tagged-block example. -/
def catItem : LearningItem := ⟨"cat", "animals", "Beginner", "a pet"⟩

/-- The JSON payload of the spec's tagged-block example. -/
def catJson : String :=
  "[\x7b\"word\":\"cat\",\"topic\":\"animals\",\"level\":\"Beginner\",\"hint\":\"a pet\"\x7d]"

/-- The spec's tagged-block example reply. -/
def catReply : String := "Hello <learned_json>" ++ catJson ++ "</learned_json>"

/-- Oracle for the platform `JSON.parse` at the example payload: parses the
example's JSON list to the cat item, anything else fails. -/
def catParse : String → Option (List LearningItem) :=
  fun s => if s = catJson then some [catItem] else none

/-!  Helper lemmas shared by the claims. -/

lemma getStoredBaseUrl_ne_empty (st : Storage) : getStoredBaseUrl st ≠ "" := by
  unfold getStoredBaseUrl
  by_cases hr : st.readFails
  · simp [hr]
    decide
  · simp [hr]
    cases hb : st.baseUrl with
    | none => decide
    | some v =>
      by_cases hv : v = ""
      · simp [hv]
        decide
      · simp [hv]

lemma altEndpoint_mem (f : String) : altEndpoint f ∈ DEFAULTS := by
  unfold altEndpoint
  split <;> decide

lemma altEndpoint_ne_empty (f : String) : altEndpoint f ≠ "" := by
  unfold altEndpoint
  split <;> decide

lemma getStoredBaseUrl_mem (st : Storage) (h : StoreOK st) : getStoredBaseUrl st ∈ DEFAULTS := by
  unfold getStoredBaseUrl
  by_cases hr : st.readFails
  · simp [hr]
    decide
  · simp [hr]
    cases hb : st.baseUrl with
    | none => decide
    | some v =>
      by_cases hv : v = ""
      · simp [hv]
        decide
      · simp [hv]
        exact h v hb

lemma setBaseUrl_ok (st : Storage) (u : String) (h : StoreOK st) (hu : u ∈ DEFAULTS) :
    StoreOK (setBaseUrl st u) := by
  intro u' h'
  unfold setBaseUrl at h'
  split at h'
  · exact h u' h'
  · simp at h'
    exact h' ▸ hu

lemma attemptOf_ok_base {α : Type} (o : AttemptOutcome α) (strf : α → String) (b : String)
    (v : α × String) (h : attemptOf o strf b = Except.ok v) : v.2 = b := by
  unfold attemptOf at h
  split at h
  · exact Except.noConfusion h
  · split at h
    · have hv := Except.ok.inj h
      rw [← hv]
    · exact Except.noConfusion h

lemma wxRequest_ok_base {α : Type} (net : String → AttemptOutcome α) (strf : α → String)
    (st : Storage) (v : α × String) (h : (wxRequest net strf st).result = Except.ok v) :
    v.2 = getStoredBaseUrl st ∨ v.2 = altEndpoint (getStoredBaseUrl st) := by
  unfold wxRequest withFallback at h
  cases h1 : attemptOf (net (getStoredBaseUrl st)) strf (getStoredBaseUrl st) with
  | ok w =>
    simp [h1] at h
    exact Or.inl (h ▸ attemptOf_ok_base _ strf _ w h1)
  | error e =>
    simp [h1] at h
    cases h2 : attemptOf (net (altEndpoint (getStoredBaseUrl st))) strf
        (altEndpoint (getStoredBaseUrl st)) with
    | ok w =>
      simp [h2] at h
      exact Or.inr (h ▸ attemptOf_ok_base _ strf _ w h2)
    | error e' => simp [h2] at h

lemma withFallback_store_or {β : Type} (req : String → Except String β) (st : Storage) :
    (withFallback req st).store = st ∨
    (withFallback req st).store = setBaseUrl st (altEndpoint (getStoredBaseUrl st)) := by
  unfold withFallback
  cases h1 : req (getStoredBaseUrl st) with
  | ok v => simp [h1]
  | error e =>
    cases h2 : req (altEndpoint (getStoredBaseUrl st)) with
    | ok v => simp [h1, h2]
    | error e' => simp [h1, h2]

/-!  Claim theorems for the request executor. -/

/-- C1. When the first attempt against the stored endpoint fails (transport
failure or non-2xx alike, both arrive as a rejection) and the retry fails too,
`withFallback` makes exactly one retry against the other pool member (the
attempt trace is `[first, alt]`), the store already holds the alternate (the
optimistic `setBaseUrl(alt)` before the retry), the whole call fails with the
retry's error — the first error `e1` is discarded — and the alternate of a
pool member is the other pool member. -/
theorem withFallback_bothFail {β : Type} (req : String → Except String β) (st : Storage)
    (e1 e2 : String) (hw : st.writeFails = false)
    (h1 : req (getStoredBaseUrl st) = Except.error e1)
    (h2 : req (altEndpoint (getStoredBaseUrl st)) = Except.error e2) :
    withFallback req st =
      ⟨Except.error e2, { st with baseUrl := some (altEndpoint (getStoredBaseUrl st)) },
        [getStoredBaseUrl st, altEndpoint (getStoredBaseUrl st)]⟩ ∧
    (getStoredBaseUrl st ∈ DEFAULTS →
      altEndpoint (getStoredBaseUrl st) ∈ DEFAULTS ∧
      altEndpoint (getStoredBaseUrl st) ≠ getStoredBaseUrl st) := by
  constructor
  · simp [withFallback, h1, h2, setBaseUrl, hw]
  · intro hmem
    simp [DEFAULTS] at hmem
    rcases hmem with h | h <;> rw [h] <;> constructor <;> decide

/-- C1 witness: both endpoints reject with distinct errors; the call fails
with the second error, the store holds the alternate, exactly two attempts. -/
theorem withFallback_bothFail_witness :
    withFallback (fun b => (Except.error ("fail " ++ b) : Except String Unit))
        ⟨none, false, false⟩ =
      ⟨Except.error ("fail " ++ DEFAULT1), ⟨some DEFAULT1, false, false⟩,
        [DEFAULT0, DEFAULT1]⟩ ∧
    (DEFAULT0 ∈ DEFAULTS → DEFAULT1 ∈ DEFAULTS ∧ DEFAULT1 ≠ DEFAULT0) :=
  withFallback_bothFail (fun b => (Except.error ("fail " ++ b) : Except String Unit))
    ⟨none, false, false⟩ ("fail " ++ DEFAULT0) ("fail " ++ DEFAULT1) rfl rfl rfl

/-- C2. An individual attempt that received a response succeeds exactly when
its status is in `[200,300)`; any other status fails with the message
`HTTP <status>: <stringified body>`. Whichever attempt succeeds, `post`
persists the endpoint that succeeded and returns that attempt's body: in
particular on (first succeeds) the store holds the first endpoint, and on
(first fails, retry succeeds) it holds the alternate and the body is the
alternate's response. -/
theorem post_success_semantics {α : Type} (net : String → AttemptOutcome α)
    (strf : α → String) (st : Storage) (hw : st.writeFails = false) :
    (∀ b sc d, net b = AttemptOutcome.response sc d →
      ((∃ v, attemptOf (net b) strf b = Except.ok v) ↔ (200 ≤ sc ∧ sc < 300)) ∧
      (¬(200 ≤ sc ∧ sc < 300) →
        attemptOf (net b) strf b = Except.error ("HTTP " ++ toString sc ++ ": " ++ strf d))) ∧
    (∀ sc d, net (getStoredBaseUrl st) = AttemptOutcome.response sc d →
      200 ≤ sc → sc < 300 →
      post net strf st =
        (Except.ok d, { st with baseUrl := some (getStoredBaseUrl st) })) ∧
    (∀ e1 sc d,
      attemptOf (net (getStoredBaseUrl st)) strf (getStoredBaseUrl st) = Except.error e1 →
      net (altEndpoint (getStoredBaseUrl st)) = AttemptOutcome.response sc d →
      200 ≤ sc → sc < 300 →
      post net strf st =
        (Except.ok d, { st with baseUrl := some (altEndpoint (getStoredBaseUrl st)) })) := by
  refine ⟨?_, ?_, ?_⟩
  · intro b sc d h
    constructor
    · by_cases hsc : 200 ≤ sc ∧ sc < 300 <;> simp [attemptOf, h, hsc]
    · intro hns
      simp [attemptOf, h, hns]
  · intro sc d h hge hlt
    have hne := getStoredBaseUrl_ne_empty st
    have h' : attemptOf (net (getStoredBaseUrl st)) strf (getStoredBaseUrl st) =
        Except.ok (d, getStoredBaseUrl st) := by
      simp [attemptOf, h, hge, hlt]
    simp [post, wxRequest, withFallback, h', hne, setBaseUrl, hw]
  · intro e1 sc d h1 h2 hge hlt
    have hne := altEndpoint_ne_empty (getStoredBaseUrl st)
    have h2' : attemptOf (net (altEndpoint (getStoredBaseUrl st))) strf
        (altEndpoint (getStoredBaseUrl st)) =
        Except.ok (d, altEndpoint (getStoredBaseUrl st)) := by
      simp [attemptOf, h2, hge, hlt]
    simp [post, wxRequest, withFallback, h1, h2', hne, setBaseUrl, hw]

/-- C2 witness: first endpoint answers 500, alternate answers 200 with body
`"ok"`; `post` returns the alternate's body and persists the alternate. -/
theorem post_success_semantics_witness :
    ((∀ b sc d,
      (fun u => if u = DEFAULT0 then AttemptOutcome.response 500 "boom"
                else AttemptOutcome.response 200 "ok") b = AttemptOutcome.response sc d →
      ((∃ v, attemptOf ((fun u => if u = DEFAULT0 then AttemptOutcome.response 500 "boom"
                else AttemptOutcome.response 200 "ok") b) id b = Except.ok v) ↔
        (200 ≤ sc ∧ sc < 300)) ∧
      (¬(200 ≤ sc ∧ sc < 300) →
        attemptOf ((fun u => if u = DEFAULT0 then AttemptOutcome.response 500 "boom"
                else AttemptOutcome.response 200 "ok") b) id b =
          Except.error ("HTTP " ++ toString sc ++ ": " ++ id d))) ∧
    (∀ sc d,
      (fun u => if u = DEFAULT0 then AttemptOutcome.response 500 "boom"
                else AttemptOutcome.response 200 "ok")
          (getStoredBaseUrl ⟨none, false, false⟩) = AttemptOutcome.response sc d →
      200 ≤ sc → sc < 300 →
      post (fun u => if u = DEFAULT0 then AttemptOutcome.response 500 "boom"
                else AttemptOutcome.response 200 "ok") id ⟨none, false, false⟩ =
        (Except.ok d, { (⟨none, false, false⟩ : Storage) with
          baseUrl := some (getStoredBaseUrl ⟨none, false, false⟩) })) ∧
    (∀ e1 sc d,
      attemptOf ((fun u => if u = DEFAULT0 then AttemptOutcome.response 500 "boom"
                else AttemptOutcome.response 200 "ok")
          (getStoredBaseUrl ⟨none, false, false⟩)) id
          (getStoredBaseUrl ⟨none, false, false⟩) = Except.error e1 →
      (fun u => if u = DEFAULT0 then AttemptOutcome.response 500 "boom"
                else AttemptOutcome.response 200 "ok")
          (altEndpoint (getStoredBaseUrl ⟨none, false, false⟩)) =
        AttemptOutcome.response sc d →
      200 ≤ sc → sc < 300 →
      post (fun u => if u = DEFAULT0 then AttemptOutcome.response 500 "boom"
                else AttemptOutcome.response 200 "ok") id ⟨none, false, false⟩ =
        (Except.ok d, { (⟨none, false, false⟩ : Storage) with
          baseUrl := some (altEndpoint (getStoredBaseUrl ⟨none, false, false⟩)) }))) :=
  post_success_semantics
    (fun u => if u = DEFAULT0 then AttemptOutcome.response 500 "boom"
              else AttemptOutcome.response 200 "ok") id ⟨none, false, false⟩ rfl

/-- C9. Starting from a store whose persisted endpoint (if any) is a pool
member, every write the executor performs — the optimistic switch inside
`withFallback` and the on-success persist in `post` — leaves a pool member:
the persisted current endpoint is never an arbitrary URL. -/
theorem endpoint_pool_invariant {α : Type} (net : String → AttemptOutcome α)
    (strf : α → String) (st : Storage) (h : StoreOK st) :
    StoreOK (wxRequest net strf st).store ∧ StoreOK (post net strf st).2 := by
  have hwOK : StoreOK (wxRequest net strf st).store := by
    rcases withFallback_store_or (fun base => attemptOf (net base) strf base) st with h1 | h1
    · unfold wxRequest
      rw [h1]
      exact h
    · unfold wxRequest
      rw [h1]
      exact setBaseUrl_ok st _ h (altEndpoint_mem _)
  refine ⟨hwOK, ?_⟩
  unfold post
  cases hr : (wxRequest net strf st).result with
  | error e => simp [hr]; exact hwOK
  | ok p =>
    obtain ⟨d, base⟩ := p
    have hb : base = getStoredBaseUrl st ∨ base = altEndpoint (getStoredBaseUrl st) :=
      wxRequest_ok_base net strf st (d, base) hr
    have hbm : base ∈ DEFAULTS := by
      rcases hb with h' | h'
      · exact h' ▸ getStoredBaseUrl_mem st h
      · exact h' ▸ altEndpoint_mem _
    simp [hr]
    split
    · exact hwOK
    · exact setBaseUrl_ok _ base hwOK hbm

/-- C9 witness: a transport-dead network from the absent store; both the
fallback store and the post-call store satisfy the pool invariant. -/
theorem endpoint_pool_invariant_witness :
    StoreOK (wxRequest (fun _ => AttemptOutcome.transportError "down")
      (id : String → String) ⟨none, false, false⟩).store ∧
    StoreOK (post (fun _ => AttemptOutcome.transportError "down")
      (id : String → String) ⟨none, false, false⟩).2 :=
  endpoint_pool_invariant (fun _ => AttemptOutcome.transportError "down") id
    ⟨none, false, false⟩ (fun _ h => nomatch h)

/-- C10. The endpoint-store read degrades to the first default for an absent
key, for a throwing storage read, and for every falsy stored value — in
particular the empty string — and what it hands to request execution (the
first attempted base URL) is never the empty string. -/
theorem getStoredBaseUrl_falsy (st : Storage) :
    (st.baseUrl = none → getStoredBaseUrl st = DEFAULT0) ∧
    (st.baseUrl = some "" → getStoredBaseUrl st = DEFAULT0) ∧
    (st.readFails = true → getStoredBaseUrl st = DEFAULT0) ∧
    getStoredBaseUrl st ≠ "" ∧
    (∀ req : String → Except String Unit,
      (withFallback req st).attempts.getD 0 "" = getStoredBaseUrl st) := by
  refine ⟨?_, ?_, ?_, getStoredBaseUrl_ne_empty st, ?_⟩
  · intro hb
    unfold getStoredBaseUrl
    rw [hb]
    split <;> rfl
  · intro hb
    unfold getStoredBaseUrl
    rw [hb]
    split <;> simp
  · intro hr
    unfold getStoredBaseUrl
    rw [hr]
    simp
  · intro req
    unfold withFallback
    cases h1 : req (getStoredBaseUrl st) with
    | ok v => simp [h1]
    | error e =>
      cases h2 : req (altEndpoint (getStoredBaseUrl st)) with
      | ok v => simp [h1, h2]
      | error e' => simp [h1, h2]

/-!  History store claims. -/

lemma take_append_take {γ : Type} (l m : List γ) (n : Nat) :
    (l ++ m.take n).take n = (l ++ m).take n := by
  rw [List.take_append_eq_append_take, List.take_append_eq_append_take, List.take_take]
  congr 1
  rw [min_eq_left (Nat.sub_le n l.length)]

lemma insertAll_eq (now : Nat) (items : List HistEntry) :
    ∀ acc : List HistEntry, acc.length ≤ 200 →
      insertAll now items acc = ((items.map (stampNow now)).reverse ++ acc).take 200 := by
  induction items with
  | nil =>
    intro acc hacc
    simp [insertAll, List.take_of_length_le hacc]
  | cons x xs ih =>
    intro acc hacc
    have hstep : insertAll now (x :: xs) acc = insertAll now xs (saveHistoryItem now x acc) := rfl
    have hlen : (saveHistoryItem now x acc).length ≤ 200 := by
      simp [saveHistoryItem]
    rw [hstep, ih _ hlen, saveHistoryItem, take_append_take]
    simp [List.append_assoc]

/-- C6. Both history mutations leave at most 200 persisted entries, and
repeatedly inserting a sequence of items into the empty store retains exactly
the most recently inserted 200, oldest evicted: the final log is the reversed
insertion sequence (newest first) truncated to 200 — for 210 insertions,
exactly 200 remain. -/
theorem history_cap (now : Nat) (it : HistEntry) (items list : List HistEntry) :
    (saveHistoryItem now it list).length ≤ 200 ∧
    (saveHistory now items list).length ≤ 200 ∧
    (insertAll now items [] = ((items.map (stampNow now)).reverse).take 200) ∧
    (items.length = 210 → (insertAll now items []).length = 200) := by
  have hins := insertAll_eq now items [] (by simp)
  refine ⟨?_, ?_, ?_, ?_⟩
  · simp [saveHistoryItem]
  · simp [saveHistory]
  · simpa using hins
  · intro h210
    rw [hins]
    simp [h210]

/-- C7 counterexample: the chat flow (`_saveHistory`) does not append the new
item to the tail of the existing log: with log `[entryA]` and new item
`entryB` at time 7, the persisted log is `[entryB stamped, entryA]`, which
differs from the tail-append result `[entryA, entryB stamped]`. -/
theorem chat_append_tail_cex :
    saveHistory 7 [entryB] [entryA] = [stampNow 7 entryB, entryA] ∧
    saveHistory 7 [entryB] [entryA] ≠ [entryA, stampNow 7 entryB] := by
  constructor
  · rfl
  · decide

/-- C7 amended: both call sites insert at the head. The suggestion flow
unshifts its stamped item to the front, the chat flow prepends its stamped
items (in order) ahead of the existing log; both then truncate to the
200-entry cap: the new material is at the head, the prior log forms the
tail. -/
theorem history_insert_head (now : Nat) (it : HistEntry) (items list : List HistEntry) :
    saveHistoryItem now it list = (stampNow now it :: list).take 200 ∧
    saveHistory now items list = (items.map (stampNow now) ++ list).take 200 ∧
    (saveHistoryItem now it list).head? = some (stampNow now it) ∧
    (items.length + list.length ≤ 200 →
      saveHistory now items list = items.map (stampNow now) ++ list) := by
  refine ⟨rfl, rfl, ?_, ?_⟩
  · rw [saveHistoryItem, List.head?_take]
    simp
  · intro hle
    have hlen : (items.map (stampNow now) ++ list).length ≤ 200 := by
      simpa using hle
    rw [saveHistory]
    exact List.take_of_length_le hlen

/-- C8 counterexample: `entryS` already carries timestamp 5, yet inserting it
at time 7 stores it with timestamp 7 — `{ ...item, ts: Date.now() }`
overwrites an existing stamp rather than preserving it. -/
theorem stamp_preserved_cex :
    entryS.ts = some 5 ∧
    saveHistoryItem 7 entryS [] = [⟨"gamma", "sports", "Intermediate", "third", some 7⟩] ∧
    (⟨"gamma", "sports", "Intermediate", "third", some 7⟩ : HistEntry).ts ≠ entryS.ts := by
  refine ⟨rfl, rfl, ?_⟩
  decide

/-- C8 amended: every history insertion stamps each incoming item with the
current time unconditionally, overwriting any timestamp the item already
carried: each entry of the new log is either an entry of the prior log or
carries `ts = now`. -/
theorem history_stamp_overwrites (now : Nat) (it : HistEntry) (items list : List HistEntry) :
    (saveHistoryItem now it list).head? = some { it with ts := some now } ∧
    (∀ e, e ∈ saveHistory now items list → e ∈ list ∨ e.ts = some now) := by
  constructor
  · rw [saveHistoryItem, List.head?_take]
    simp [stampNow]
  · intro e he
    have he' : e ∈ items.map (stampNow now) ++ list :=
      List.take_subset 200 _ he
    rcases List.mem_append.mp he' with h | h
    · right
      obtain ⟨a, _, rfl⟩ := List.mem_map.mp h
      rfl
    · left
      exact h

/-!  Response normalizer claims. -/

lemma normalize_eq_text (jp : String → Option (List LearningItem)) (res : Option ChatResponse)
    (hns : ¬ structuredFires res) :
    normalize jp res = normalizeText jp (replyText res) := by
  unfold normalize replyText
  cases res with
  | none => rfl
  | some r =>
    cases hl : r.learned with
    | none => simp [hl]
    | some l =>
      cases l with
      | nil => simp [hl]
      | cons x xs =>
        exact absurd ⟨r, x, xs, rfl, hl⟩ hns

lemma normalizeText_pipeFallback (jp : String → Option (List LearningItem)) (text : String)
    (hng : ¬ taggedFires jp text) :
    normalizeText jp text = pipeFallback (jsTrim (stripLearned text)) := by
  unfold normalizeText
  cases he : extractLearned text with
  | none => simp [he]
  | some inner =>
    by_cases hi : inner = ""
    · simp [he, hi]
    · cases hj : jp inner with
      | none => simp [he, hi, hj]
      | some l =>
        cases l with
        | nil => simp [he, hi, hj]
        | cons x xs =>
          exact absurd ⟨inner, x, xs, he, hi, hj⟩ hng

lemma pipeFallback_short (c : String) (h : ¬ 4 ≤ ((jsSplitPipe c).map jsTrim).length) :
    pipeFallback c =
      ({ word := "Word", topic := "General", level := "All",
         hint := if c = "" then "Start learning now!" else c }, Branch.fallback) := by
  unfold pipeFallback
  simp only [List.length_map] at h
  simp [h]

lemma pipeFallback_long (c : String) (h : 4 ≤ ((jsSplitPipe c).map jsTrim).length) :
    pipeFallback c =
      ({ word := ((jsSplitPipe c).map jsTrim).getD 0 "",
         topic := ((jsSplitPipe c).map jsTrim).getD 1 "",
         level := ((jsSplitPipe c).map jsTrim).getD 2 "",
         hint := joinSep " | " (((jsSplitPipe c).map jsTrim).drop 3) }, Branch.pipe) := by
  unfold pipeFallback
  simp only [List.length_map] at h
  simp [h]

lemma stripLearned_no_open (s : String) (h : splitFirst openTag s.data = none) :
    stripLearned s = s := by
  unfold stripLearned
  cases hn : s.data.length with
  | zero => rfl
  | succ n =>
    show String.mk (stripAux (n + 1) s.data) = s
    unfold stripAux
    rw [h]

/-- C3. The normalizer is total: every input yields an item (the Lean model
is a total function into `LearningItem × Branch`, mirroring that every JS
path returns and every throw is caught); whenever no extraction strategy
succeeds — no structured list, no parsable non-empty tagged block, fewer than
4 pipe segments — the result is the fixed fallback item `word="Word"`,
`topic="General"`, `level="All"` with hint the cleaned text, or the fixed
default `"Start learning now!"` when the cleaned text is empty; on the reply
`"not enough parts"` this gives exactly the fallback item, for every parse
oracle. -/
theorem normalize_total (jp : String → Option (List LearningItem)) (res : Option ChatResponse) :
    (∃ it b, normalize jp res = (it, b)) ∧
    ((¬ structuredFires res ∧ ¬ taggedFires jp (replyText res) ∧ ¬ pipeFires (replyText res)) →
      normalize jp res =
        ({ word := "Word", topic := "General", level := "All",
           hint := if jsTrim (stripLearned (replyText res)) = "" then "Start learning now!"
                   else jsTrim (stripLearned (replyText res)) }, Branch.fallback)) ∧
    (∀ jp' : String → Option (List LearningItem),
      normalize jp' (some ⟨none, some "not enough parts"⟩) =
        ({ word := "Word", topic := "General", level := "All",
           hint := "not enough parts" }, Branch.fallback)) := by
  refine ⟨⟨(normalize jp res).1, (normalize jp res).2, rfl⟩, ?_, ?_⟩
  · rintro ⟨hs, ht, hp⟩
    rw [normalize_eq_text jp res hs, normalizeText_pipeFallback jp _ ht]
    exact pipeFallback_short _ hp
  · intro jp'
    rfl

/-- C4. When the reply embeds a tagged block whose captured content is
non-empty and parses to a non-empty list, the normalizer returns the list's
first element verbatim from the tagged-JSON stage; on the spec's example
reply the item is the cat item and the chat display shows `"Hello"` — and
stripping is what the display pipeline always applies: text without an
opening tag passes through unchanged, and every complete tagged block is
removed, as on the two-block example. -/
theorem tagged_verbatim (jp : String → Option (List LearningItem)) :
    (∀ (reply inner : String) (item : LearningItem) (rest : List LearningItem),
      extractLearned reply = some inner → inner ≠ "" → jp inner = some (item :: rest) →
      normalize jp (some ⟨none, some reply⟩) = (item, Branch.taggedJson)) ∧
    normalize catParse (some ⟨none, some catReply⟩) = (catItem, Branch.taggedJson) ∧
    chatDisplay (some ⟨none, some catReply⟩) = "Hello" ∧
    (∀ s : String, splitFirst openTag s.data = none → stripLearned s = s) ∧
    stripLearned "A <learned_json>X</learned_json> B <learned_json>Y</learned_json> C" =
      "A  B  C" := by
  refine ⟨?_, ?_, ?_, fun s h => stripLearned_no_open s h, ?_⟩
  · intro reply inner item rest he hi hj
    have h0 : normalize jp (some ⟨none, some reply⟩) = normalizeText jp reply := rfl
    rw [h0]
    unfold normalizeText
    simp [he, hi, hj]
  · rfl
  · rfl
  · rfl

/-- C5. When the structured and tagged stages do not fire and the stripped,
trimmed reply splits on the pipe into at least 4 trimmed segments, the item
takes the first three segments as word, topic and level positionally, and the
hint is the 4th-onward segments re-joined with `" | "`. -/
theorem pipe_stage (jp : String → Option (List LearningItem)) (reply : String)
    (hng : ¬ taggedFires jp reply) (hlen : 4 ≤ (pipeParts reply).length) :
    normalize jp (some ⟨none, some reply⟩) =
      ({ word := (pipeParts reply).getD 0 "", topic := (pipeParts reply).getD 1 "",
         level := (pipeParts reply).getD 2 "",
         hint := joinSep " | " ((pipeParts reply).drop 3) }, Branch.pipe) := by
  have h0 : normalize jp (some ⟨none, some reply⟩) = normalizeText jp reply := rfl
  rw [h0, normalizeText_pipeFallback jp reply hng]
  exact pipeFallback_long _ hlen

/-- C5 witness: the spec's pipe example, with a parse oracle that always
fails (no tagged block is present anyway). -/
theorem pipe_stage_witness :
    normalize (fun _ => none)
        (some ⟨none, some "dog | animals | Beginner | a loyal pet | extra"⟩) =
      ({ word := "dog", topic := "animals", level := "Beginner",
         hint := "a loyal pet | extra" }, Branch.pipe) := by
  have h := pipe_stage (fun _ => none) "dog | animals | Beginner | a loyal pet | extra"
    (by rintro ⟨inner, item, rest, he, hi, hj⟩; exact Option.noConfusion hj)
    (by decide)
  exact h.trans (by decide)

end VocabBuddy
